import Mathlib

/-!
Shallow embedding of `parse_text_file` from `src/neet_ug_extraction.py`
(NEET-UG selection-list text parser), together with theorems settling the
specification claims about it.

The Python source works on `str`; here every string operation used by the
parser (`strip`, `split`, `split('\n')`, `in`, `startswith`, `' '.join`,
`isdigit`, the two regexes `^\s*Sr\.\s+AIR\s+NEET`, `^\(W\)$`, `^\d+:`,
and `split(':', 1)`) is re-implemented over `List Char` so that everything
reduces inside the kernel.  Whitespace and digits are modelled at the ASCII
level (the report data is ASCII).
-/

/-- Whitespace as recognised by Python `str.strip` / `str.split()` / `\s`,
restricted to ASCII. -/
def isWS (c : Char) : Bool :=
  c = ' ' || c = '\t' || c = '\n' || c = '\r' || c = '\x0b' || c = '\x0c'

/-- Python `line.strip()`: drop leading and trailing whitespace. -/
def pyStrip (s : String) : String :=
  ⟨((s.data.dropWhile isWS).reverse.dropWhile isWS).reverse⟩

/-- Python `s.isdigit()` (ASCII digits): nonempty and all characters digits. -/
def isDigitStr (s : String) : Bool :=
  !s.data.isEmpty && s.data.all Char.isDigit

/-- Helper for Python `line.split()`: accumulate the current word (reversed)
while scanning; whitespace runs separate words, empty words are dropped. -/
def splitWsAux : List Char → List Char → List (List Char)
  | cur, [] => if cur.isEmpty then [] else [cur.reverse]
  | cur, c :: t =>
    if isWS c then
      if cur.isEmpty then splitWsAux [] t else cur.reverse :: splitWsAux [] t
    else splitWsAux (c :: cur) t

/-- Python `line.split()`: split on whitespace runs, dropping empty parts. -/
def pySplitWs (s : String) : List String :=
  (splitWsAux [] s.data).map fun l => ⟨l⟩

/-- Python `text.split('\n')`: split on every newline, keeping empty parts. -/
def splitNlAux : List Char → List (List Char)
  | [] => [[]]
  | c :: t =>
    if c = '\n' then [] :: splitNlAux t
    else
      match splitNlAux t with
      | [] => [[c]]
      | h :: rest => (c :: h) :: rest

/-- Python `text.split('\n')` lifted to `String`. -/
def splitLines (text : String) : List String :=
  (splitNlAux text.data).map fun l => ⟨l⟩

/-- Python `p in s` (substring containment) on character lists. -/
def containsSub (s p : List Char) : Bool :=
  if p.isPrefixOf s then true
  else
    match s with
    | [] => false
    | _ :: t => containsSub t p

/-- Python `p in s` on strings. -/
def containsStr (s p : String) : Bool :=
  containsSub s.data p.data

/-- Python `s.startswith(p)`. -/
def strStartsWith (s p : String) : Bool :=
  p.data.isPrefixOf s.data

/-- Python `' '.join(parts)`. -/
def joinSpace : List String → String
  | [] => ""
  | [x] => x
  | x :: xs => x ++ " " ++ joinSpace xs

/-- Match a literal inside a hand-rolled regex matcher: on success return the
rest of the input. -/
def matchLit : List Char → List Char → Option (List Char)
  | [], s => some s
  | _ :: _, [] => none
  | c :: p, d :: s => if c = d then matchLit p s else none

/-- Match `\s+` (one or more whitespace, greedy) and return the rest. -/
def matchWsPlus : List Char → Option (List Char)
  | [] => none
  | c :: s => if isWS c then some (s.dropWhile isWS) else none

/-- The anchored regex `^\s*Sr\.\s+AIR\s+NEET` from line 45 of the source. -/
def headerRegex (s : List Char) : Bool :=
  match matchLit "Sr.".data (s.dropWhile isWS) with
  | none => false
  | some s1 =>
    match matchWsPlus s1 with
    | none => false
    | some s2 =>
      match matchLit "AIR".data s2 with
      | none => false
      | some s3 =>
        match matchWsPlus s3 with
        | none => false
        | some s4 => (matchLit "NEET".data s4).isSome

/-- Table-start test from line 45 of the source:
`re.match(r'^\s*Sr\.\s+AIR\s+NEET', line) or 'Sr.     AIR     NEET' in line`. -/
def headerMatch (line : String) : Bool :=
  headerRegex line.data || containsStr line "Sr.     AIR     NEET"

/-- The regex `^\d+:` from line 164 of the source (college-code-shaped token):
one or more digits followed by a colon. -/
def collegePat (t : String) : Bool :=
  let ds := t.data.takeWhile Char.isDigit
  !ds.isEmpty &&
    match t.data.drop ds.length with
    | ':' :: _ => true
    | _ => false

/-- Python `s.split(':', 1)` when a colon is present: the parts before and
after the first colon. -/
def splitColon : List Char → Option (List Char × List Char)
  | [] => none
  | c :: t =>
    if c = ':' then some ([], t)
    else
      match splitColon t with
      | none => none
      | some (l, r) => some (c :: l, r)

/-- The category vocabulary `VALID_CATEGORIES` from line 22 of the source. -/
def VALID_CATEGORIES : List String :=
  ["OBC", "SC", "ST", "SEBC", "NTC", "NTD", "NTB", "SBC", "EWS", "HA",
   "VJA", "SOBC", "D1", "D2", "D3", "PWD", "ORP-C"]

/-- The sub-code set `{'D1', 'D2', 'D3', 'PWD', 'ORP-C'}` from line 156. -/
def subCodes : List String :=
  ["D1", "D2", "D3", "PWD", "ORP-C"]

/-- Python `x in someList` for string lists (set membership in the source). -/
def memS (x : String) : List String → Bool
  | [] => false
  | y :: ys => if x = y then true else memS x ys

/-- The header/footer prose prefixes from line 65 of the source. -/
def noisePrefixes : List String :=
  ["GOVERNMENT", "Note:", "Admissions", "SELECTION", "Printed", "I.Q.:"]

/-- One parsed table row (the `row` dict of the source, ten fields). -/
structure Record where
  srNo : String
  air : String
  neetRoll : String
  cetForm : String
  name : String
  gender : String
  category : String
  quota : String
  collegeCode : String
  collegeName : String
deriving DecidableEq, Repr

/-- Consume one mandatory numeric token (the guarded
`if idx < len(parts) and parts[idx].isdigit()` steps, lines 95-128). -/
def takeDigit : List String → Option (String × List String)
  | [] => none
  | t :: ts => if isDigitStr t then some (t, ts) else none

/-- The Name loop (lines 131-134): collect tokens until `M` or `F`. -/
def takeNameAux : List String → List String × List String
  | [] => ([], [])
  | t :: ts =>
    if t = "M" || t = "F" then ([], t :: ts)
    else
      let r := takeNameAux ts
      (t :: r.1, r.2)

/-- The Gender step (lines 139-143): one `M`/`F` token, else empty. -/
def takeGender : List String → String × List String
  | [] => ("", [])
  | t :: ts => if t = "M" || t = "F" then (t, ts) else ("", t :: ts)

/-- The Category step (lines 147-158): optional vocabulary token with `(W)`
lookahead suppression and sub-code compounding. -/
def extractCategory : List String → String × List String
  | [] => ("", [])
  | t :: ts =>
    if memS t VALID_CATEGORIES then
      match ts with
      | [] => (t, [])
      | t2 :: ts2 =>
        if t2 = "(W)" then ("", t :: t2 :: ts2)
        else if memS t2 subCodes && !memS t subCodes then (t ++ " " ++ t2, ts2)
        else (t, t2 :: ts2)
    else ("", t :: ts)

/-- The Quota loop (lines 163-166): collect tokens until a college-code-shaped
token `^\d+:`. -/
def takeQuota : List String → List String × List String
  | [] => ([], [])
  | t :: ts =>
    if collegePat t then ([], t :: ts)
    else
      let r := takeQuota ts
      (t :: r.1, r.2)

/-- The Quota normalisation (lines 167-169): join with spaces and collapse
anything starting with `Choice` to the fixed literal. -/
def quotaNormalize (qts : List String) : String :=
  let q := joinSpace qts
  if strStartsWith q "Choice" then "Choice Not Available" else q

/-- The College Code / College Name step (lines 174-180): join the remaining
tokens and split once on the first colon; without a colon both are empty. -/
def extractCollege : List String → String × String
  | [] => ("", "")
  | t :: ts =>
    match splitColon (joinSpace (t :: ts)).data with
    | some (l, r) => (pyStrip ⟨l⟩, pyStrip ⟨r⟩)
    | none => ("", "")

/-- The field extractor (lines 91-190): four mandatory numeric tokens, then
Name, Gender, Category, Quota, College; `none` means the row was rejected
(`continue` in the source). -/
def extractFields (parts : List String) : Option Record :=
  match takeDigit parts with
  | none => none
  | some (sr, r1) =>
    match takeDigit r1 with
    | none => none
    | some (air, r2) =>
      match takeDigit r2 with
      | none => none
      | some (roll, r3) =>
        match takeDigit r3 with
        | none => none
        | some (form, r4) =>
          let n := takeNameAux r4
          let g := takeGender n.2
          let cq := extractCategory g.2
          let qu := takeQuota cq.2
          let col := extractCollege qu.2
          some
            { srNo := sr, air := air, neetRoll := roll, cetForm := form,
              name := joinSpace n.1, gender := g.1,
              category := pyStrip cq.1,
              quota := quotaNormalize qu.1,
              collegeCode := col.1, collegeName := col.2 }

/-- One in-table data row (lines 84-88 guard plus the extractor): tokenize,
reject unless the first token is all digits, then extract fields. -/
def parseRow (line : String) : Option Record :=
  match pySplitWs line with
  | [] => none
  | p0 :: rest =>
    if isDigitStr p0 then extractFields (p0 :: rest) else none

/-- The mutable loop state of `parse_text_file`: the `in_table` flag, the
`skip_next_line` flag, and the accumulated rows. -/
structure ParseState where
  inTable : Bool
  skipNext : Bool
  data : List Record
deriving DecidableEq, Repr

/-- Initial state (lines 28-31). -/
def initState : ParseState :=
  { inTable := false, skipNext := false, data := [] }

/-- One iteration of the main loop (lines 35-191), with the source's branch
order: strip; skip empty; table start; pending second-header skip; table end
on `Legends :`; out-of-table prose prefixes; `Current Selection Details`;
divider lines; then in-table row parsing. -/
def processLine (st : ParseState) (raw : String) : ParseState :=
  let line := pyStrip raw
  if line = "" then st
  else if headerMatch line then { st with inTable := true, skipNext := true }
  else if st.skipNext then { st with skipNext := false }
  else if containsStr line "Legends :" then { st with inTable := false }
  else if !st.inTable && noisePrefixes.any (fun p => strStartsWith line p) then st
  else if containsStr line "Current Selection Details" then st
  else if strStartsWith line "----" || strStartsWith line "====" then st
  else if st.inTable then
    match parseRow line with
    | some r => { st with data := st.data ++ [r] }
    | none => st
  else st

/-- The parser `parse_text_file` (lines 25-194), returning the ordered row
sequence that the source wraps in a `DataFrame`. -/
def parse_text_file (text : String) : List Record :=
  ((splitLines text).foldl processLine initState).data

/-- The end-to-end input of the C1 scenario. -/
def c1Text : String :=
  "Sr.     AIR     NEET Roll No.   CET Form No.   Name   Gender   Category   Quota   College\n" ++
  "No.        Marks\n" ++
  "1 500 123456 7890 JOHN DOE M OBC State 1001:Govt Medical College\n" ++
  "Legends :"

/-- The Record the C1 scenario must produce. -/
def c1Rec : Record :=
  { srNo := "1", air := "500", neetRoll := "123456", cetForm := "7890",
    name := "JOHN DOE", gender := "M", category := "OBC", quota := "State",
    collegeCode := "1001", collegeName := "Govt Medical College" }

/-- C1: the end-to-end scenario — header line, sub-header line, the data line
`1 500 123456 7890 JOHN DOE M OBC State 1001:Govt Medical College`, then
`Legends :` — yields exactly one Record with the ten stated field values. -/
theorem c1_end_to_end : parse_text_file c1Text = [c1Rec] := by
  decide

/-- A line containing `Legends :` is nonempty. -/
lemma legends_ne_empty (s : String) (h : containsStr s "Legends :" = true) :
    ¬ s = "" := by
  intro he
  rw [he] at h
  exact absurd h (by decide)

/-- A line matching the table-header test is nonempty. -/
lemma header_ne_empty (s : String) (h : headerMatch s = true) :
    ¬ s = "" := by
  intro he
  rw [he] at h
  exact absurd h (by decide)

/-- Outside the table with no pending skip, a non-header line leaves the whole
parse state unchanged. -/
lemma processLine_stable (st : ParseState) (l : String)
    (hIn : st.inTable = false) (hSk : st.skipNext = false)
    (hl : headerMatch (pyStrip l) = false) :
    processLine st l = st := by
  cases st with
  | mk tIn tSk d =>
    simp only at hIn hSk
    subst hIn
    subst hSk
    simp [processLine, hl]

/-- Outside the table with no pending skip, any run of non-header lines leaves
the whole parse state unchanged. -/
lemma foldl_stable (ls : List String) (st : ParseState)
    (hIn : st.inTable = false) (hSk : st.skipNext = false)
    (hAll : ∀ l ∈ ls, headerMatch (pyStrip l) = false) :
    ls.foldl processLine st = st := by
  induction ls with
  | nil => rfl
  | cons x xs ih =>
    have hx : headerMatch (pyStrip x) = false := hAll x (List.mem_cons_self x xs)
    rw [List.foldl_cons, processLine_stable st x hIn hSk hx]
    exact ih (fun l hl => hAll l (List.mem_cons_of_mem x hl))

/-- C9: no line before the first header-marker line produces a Record — if the
input splits as a header-free prefix followed by the rest, the parse result is
exactly the parse of the rest alone (the in-table state starts false and the
prefix leaves the state untouched). -/
theorem c9_no_record_before_header (text : String) (pre post : List String)
    (hsplit : splitLines text = pre ++ post)
    (hpre : ∀ l ∈ pre, headerMatch (pyStrip l) = false) :
    parse_text_file text = (post.foldl processLine initState).data := by
  unfold parse_text_file
  rw [hsplit, List.foldl_append, foldl_stable pre initState rfl rfl hpre]

/-- Witness input for C9: two noise lines, then a table. -/
def c9Text : String :=
  "GOVERNMENT OF MAHARASHTRA\nSELECTION LIST\n" ++
  "Sr.     AIR     NEET Roll No.\nsub header\n" ++
  "4 800 555555 6666 ASHA PATIL F SC State 1004:Fourth College"

/-- Witness for C9 at a concrete input: the two pre-header noise lines
contribute nothing and the parse equals the parse of the remaining lines. -/
theorem c9_witness :
    (splitLines c9Text =
        ["GOVERNMENT OF MAHARASHTRA", "SELECTION LIST"] ++
          ["Sr.     AIR     NEET Roll No.", "sub header",
           "4 800 555555 6666 ASHA PATIL F SC State 1004:Fourth College"] ∧
      (∀ l ∈ ["GOVERNMENT OF MAHARASHTRA", "SELECTION LIST"],
        headerMatch (pyStrip l) = false)) ∧
    parse_text_file c9Text =
      ((["Sr.     AIR     NEET Roll No.", "sub header",
         "4 800 555555 6666 ASHA PATIL F SC State 1004:Fourth College"].foldl
          processLine initState)).data :=
  ⟨⟨by decide, by decide⟩,
    c9_no_record_before_header c9Text
      ["GOVERNMENT OF MAHARASHTRA", "SELECTION LIST"]
      ["Sr.     AIR     NEET Roll No.", "sub header",
       "4 800 555555 6666 ASHA PATIL F SC State 1004:Fourth College"]
      (by decide) (by decide)⟩

/-- A `Legends :` line processed with no pending skip ends the table and is
itself discarded. -/
lemma processLine_legends (st : ParseState) (L : String)
    (hSk : st.skipNext = false)
    (hL : containsStr (pyStrip L) "Legends :" = true)
    (hLh : headerMatch (pyStrip L) = false) :
    processLine st L = { st with inTable := false } := by
  have hne : ¬ pyStrip L = "" := legends_ne_empty _ hL
  cases st with
  | mk tIn tSk d =>
    simp only at hSk
    subst hSk
    simp [processLine, hne, hLh, hL]

/-- C2 (amended): a `Legends :` line that is not consumed by the pending
second-header skip ends the table, and every following line up to the next
header marker produces no Record. -/
theorem c2_legends_ends_table (st : ParseState) (L : String) (ls : List String)
    (hSk : st.skipNext = false)
    (hL : containsStr (pyStrip L) "Legends :" = true)
    (hLh : headerMatch (pyStrip L) = false)
    (hAll : ∀ l ∈ ls, headerMatch (pyStrip l) = false) :
    ((L :: ls).foldl processLine st).data = st.data := by
  rw [List.foldl_cons, processLine_legends st L hSk hL hLh,
    foldl_stable ls { st with inTable := false } rfl hSk hAll]

/-- Witness for C2 at a concrete input: starting in-table with no pending
skip, a `Legends :` line followed by a data-shaped line yields no Record. -/
theorem c2_witness :
    ((⟨true, false, []⟩ : ParseState).skipNext = false ∧
      containsStr (pyStrip "Legends : D1 - Disability") "Legends :" = true ∧
      headerMatch (pyStrip "Legends : D1 - Disability") = false ∧
      (∀ l ∈ ["5 900 777777 8888 RAVI JOSHI M OBC State 1005:Fifth College"],
        headerMatch (pyStrip l) = false)) ∧
    ((["Legends : D1 - Disability",
       "5 900 777777 8888 RAVI JOSHI M OBC State 1005:Fifth College"].foldl
        processLine ⟨true, false, []⟩).data = ([] : List Record)) :=
  ⟨⟨by decide, by decide, by decide, by decide⟩,
    c2_legends_ends_table ⟨true, false, []⟩ "Legends : D1 - Disability"
      ["5 900 777777 8888 RAVI JOSHI M OBC State 1005:Fifth College"]
      (by decide) (by decide) (by decide) (by decide)⟩

/-- Counterexample input for C2: the `Legends :` line is the line immediately
following the header line. -/
def c2CexText : String :=
  "Sr.     AIR     NEET Roll No.\nLegends :\n" ++
  "2 600 111111 2222 JANE ROE F SC State 1002:Some College"

/-- The Record that refutes C2 as stated. -/
def c2CexRec : Record :=
  { srNo := "2", air := "600", neetRoll := "111111", cetForm := "2222",
    name := "JANE ROE", gender := "F", category := "SC", quota := "State",
    collegeCode := "1002", collegeName := "Some College" }

/-- Counterexample to C2 as stated: when the `Legends :` line immediately
follows the header line, it is consumed by the pending second-header skip, the
in-table state stays true, and the next line — after the `Legends :` marker
and before any subsequent header marker — does produce a Record. -/
theorem c2_counterexample :
    ((["Sr.     AIR     NEET Roll No.", "Legends :"].foldl processLine
        initState).inTable = true) ∧
    parse_text_file c2CexText = [c2CexRec] := by
  decide

/-- A header line turns the table on and arms the pending second-header skip. -/
lemma processLine_header (st : ParseState) (H : String)
    (hH : headerMatch (pyStrip H) = true) :
    processLine st H = { st with inTable := true, skipNext := true } := by
  have hne : ¬ pyStrip H = "" := header_ne_empty _ hH
  simp [processLine, hne, hH]

/-- An empty (whitespace-only) line leaves the whole parse state unchanged —
in particular it does not consume a pending second-header skip. -/
lemma processLine_empty (st : ParseState) (W : String)
    (hW : pyStrip W = "") :
    processLine st W = st := by
  simp [processLine, hW]

/-- A nonempty non-header line processed with the pending skip armed is
discarded unconditionally, merely clearing the flag. -/
lemma processLine_skipNext (st : ParseState) (D : String)
    (hSk : st.skipNext = true)
    (hne : ¬ pyStrip D = "")
    (hDh : headerMatch (pyStrip D) = false) :
    processLine st D = { st with skipNext := false } := by
  cases st with
  | mk tIn tSk d =>
    simp only at hSk
    subst hSk
    simp [processLine, hne, hDh]

/-- C3 (amended): a whitespace-only line after a header line is discarded as
empty without consuming the pending skip; the pending skip then consumes the
first subsequent non-empty line, so the data line two lines after the header
is discarded, not parsed — no Record is appended. -/
theorem c3_pending_skip_carries (st : ParseState) (H W D : String)
    (hH : headerMatch (pyStrip H) = true)
    (hW : pyStrip W = "")
    (hD : ¬ pyStrip D = "")
    (hDh : headerMatch (pyStrip D) = false) :
    [H, W, D].foldl processLine st =
      { inTable := true, skipNext := false, data := st.data } := by
  rw [List.foldl_cons, processLine_header st H hH, List.foldl_cons,
    processLine_empty _ W hW, List.foldl_cons,
    processLine_skipNext _ D rfl hD hDh]
  rfl

/-- Witness for C3 (amended) at a concrete input: header, whitespace-only
line, then a valid data line — the data line is discarded. -/
theorem c3_witness :
    (headerMatch (pyStrip "Sr.     AIR     NEET Roll No.") = true ∧
      pyStrip "   " = "" ∧
      ¬ pyStrip "3 700 333333 4444 AMIT KUMAR M OBC State 1003:Third College" = "" ∧
      headerMatch
        (pyStrip "3 700 333333 4444 AMIT KUMAR M OBC State 1003:Third College") =
        false) ∧
    ["Sr.     AIR     NEET Roll No.", "   ",
      "3 700 333333 4444 AMIT KUMAR M OBC State 1003:Third College"].foldl
        processLine initState =
      { inTable := true, skipNext := false, data := [] } :=
  ⟨⟨by decide, by decide, by decide, by decide⟩,
    c3_pending_skip_carries initState "Sr.     AIR     NEET Roll No." "   "
      "3 700 333333 4444 AMIT KUMAR M OBC State 1003:Third College"
      (by decide) (by decide) (by decide) (by decide)⟩

/-- Counterexample input for C3: header, a whitespace-only line, then a valid
data line. -/
def c3CexText : String :=
  "Sr.     AIR     NEET Roll No.\n   \n" ++
  "3 700 333333 4444 AMIT KUMAR M OBC State 1003:Third College"

/-- Counterexample to C3 as stated: the data line two lines after the header
is a perfectly valid data row (the extractor accepts it), yet the parse of the
whole input yields no Record — the pending skip consumed the data line, not
the whitespace-only line. -/
theorem c3_counterexample :
    (parseRow "3 700 333333 4444 AMIT KUMAR M OBC State 1003:Third College").isSome =
        true ∧
    parse_text_file c3CexText = [] := by
  decide

/-- A token list with fewer than four leading all-digit tokens is rejected by
the field extractor. -/
lemma extractFields_none_of_few_digits (parts : List String)
    (h : (parts.takeWhile isDigitStr).length < 4) :
    extractFields parts = none := by
  rcases parts with _ | ⟨p1, _ | ⟨p2, _ | ⟨p3, _ | ⟨p4, r⟩⟩⟩⟩
  · rfl
  · by_cases h1 : isDigitStr p1 <;> simp [extractFields, takeDigit, h1]
  · by_cases h1 : isDigitStr p1 <;> by_cases h2 : isDigitStr p2 <;>
      simp [extractFields, takeDigit, h1, h2]
  · by_cases h1 : isDigitStr p1 <;> by_cases h2 : isDigitStr p2 <;>
      by_cases h3 : isDigitStr p3 <;>
      simp [extractFields, takeDigit, h1, h2, h3]
  · by_cases h1 : isDigitStr p1 <;> by_cases h2 : isDigitStr p2 <;>
      by_cases h3 : isDigitStr p3 <;> by_cases h4 : isDigitStr p4 <;>
      first
        | (simp only [List.takeWhile_cons, h1, h2, h3, h4, if_true,
            List.length_cons] at h
           omega)
        | simp [extractFields, takeDigit, h1, h2, h3, h4]

/-- Processing one line either leaves the output untouched or appends exactly
the one Record that the row parser produced for that line. -/
lemma processLine_data_sub (st : ParseState) (raw : String) :
    (processLine st raw).data = st.data ∨
      ∃ r, parseRow (pyStrip raw) = some r ∧
        (processLine st raw).data = st.data ++ [r] := by
  rcases hp : parseRow (pyStrip raw) with _ | r
  · left
    simp only [processLine, hp]
    split_ifs <;> rfl
  · simp only [processLine, hp]
    split_ifs <;>
      first
        | (left; rfl)
        | (right; exact ⟨r, rfl, rfl⟩)

/-- C4: an in-table line with fewer than four leading all-digit tokens (an
empty token list and a non-numeric first token included) is rejected as a
whole — the row parser returns nothing and processing the line, in any state,
appends no Record (partial rows are never emitted) while the pass goes on. -/
theorem c4_short_rows_rejected (st : ParseState) (raw : String)
    (h : ((pySplitWs (pyStrip raw)).takeWhile isDigitStr).length < 4) :
    parseRow (pyStrip raw) = none ∧ (processLine st raw).data = st.data := by
  have hrow : parseRow (pyStrip raw) = none := by
    unfold parseRow
    rcases e : pySplitWs (pyStrip raw) with _ | ⟨p0, rest⟩
    · rfl
    · rw [e] at h
      simp only
      by_cases h0 : isDigitStr p0
      · rw [if_pos h0]
        exact extractFields_none_of_few_digits _ h
      · rw [if_neg h0]
  refine ⟨hrow, ?_⟩
  rcases processLine_data_sub st raw with hd | ⟨r, hr, _⟩
  · exact hd
  · rw [hrow] at hr
    exact absurd hr (by simp)

/-- Witness for C4 at a concrete input: the in-table line
`12 34 NOTDIGIT 56 NAME M` has only two leading numeric tokens, so no Record
is appended. -/
theorem c4_witness :
    ((pySplitWs (pyStrip "12 34 NOTDIGIT 56 NAME M")).takeWhile
        isDigitStr).length < 4 ∧
    parseRow (pyStrip "12 34 NOTDIGIT 56 NAME M") = none ∧
    (processLine ⟨true, false, []⟩ "12 34 NOTDIGIT 56 NAME M").data =
      (⟨true, false, []⟩ : ParseState).data :=
  ⟨by decide,
    c4_short_rows_rejected ⟨true, false, []⟩ "12 34 NOTDIGIT 56 NAME M"
      (by decide)⟩

/-- The output sequence only ever grows by whole Records across a run of
lines. -/
lemma foldl_data_append (ls : List String) :
    ∀ st : ParseState, ∃ tail : List Record,
      (ls.foldl processLine st).data = st.data ++ tail := by
  induction ls with
  | nil => exact fun st => ⟨[], (List.append_nil st.data).symm⟩
  | cons x xs ih =>
    intro st
    rcases ih (processLine st x) with ⟨tail, htail⟩
    rcases processLine_data_sub st x with hd | ⟨r, _, hd⟩
    · exact ⟨tail, by rw [List.foldl_cons, htail, hd]⟩
    · exact ⟨r :: tail, by rw [List.foldl_cons, htail, hd]; simp⟩

/-- C8: the parse is total skip-and-continue — processing any single line in
any state either leaves the output sequence unchanged (the row is absorbed
locally) or appends exactly one complete Record, and over any run of lines the
output is the old output extended by a (possibly empty) ordered tail; no
per-row condition can abort the pass (every step is a total function). -/
theorem c8_total_skip_and_continue :
    (∀ (st : ParseState) (raw : String),
        (processLine st raw).data = st.data ∨
          ∃ r : Record, (processLine st raw).data = st.data ++ [r]) ∧
    (∀ (ls : List String) (st : ParseState),
        ∃ tail : List Record, (ls.foldl processLine st).data = st.data ++ tail) := by
  constructor
  · intro st raw
    rcases processLine_data_sub st raw with hd | ⟨r, _, hd⟩
    · exact Or.inl hd
    · exact Or.inr ⟨r, hd⟩
  · exact fun ls st => foldl_data_append ls st

/-- An accepted row comes from the field extractor run on some token list. -/
lemma parseRow_some (l : String) (r : Record) (h : parseRow l = some r) :
    ∃ parts, extractFields parts = some r := by
  rcases e : pySplitWs l with _ | ⟨p0, rest⟩
  · simp only [parseRow, e] at h
    exact Option.noConfusion h
  · simp only [parseRow, e] at h
    by_cases h0 : isDigitStr p0
    · rw [if_pos h0] at h
      exact ⟨p0 :: rest, h⟩
    · rw [if_neg h0] at h
      exact absurd h (by simp)

/-- Every Record in the folded output was already present or was produced by
the field extractor on some token list. -/
lemma mem_foldl_data (ls : List String) :
    ∀ (st : ParseState) (rec : Record),
      rec ∈ (ls.foldl processLine st).data →
        rec ∈ st.data ∨ ∃ parts, extractFields parts = some rec := by
  induction ls with
  | nil => exact fun st rec h => Or.inl h
  | cons x xs ih =>
    intro st rec h
    rcases ih (processLine st x) rec h with h' | h'
    · rcases processLine_data_sub st x with hd | ⟨r, hr, hd⟩
      · exact Or.inl (hd ▸ h')
      · rw [hd] at h'
        rcases List.mem_append.mp h' with h'' | h''
        · exact Or.inl h''
        · rcases List.mem_singleton.mp h'' with rfl
          exact Or.inr (parseRow_some _ _ hr)
    · exact Or.inr h'

/-- The Name loop leaves either nothing or a gender token at the front. -/
lemma takeNameAux_snd (ts : List String) :
    (takeNameAux ts).2 = [] ∨
      ∃ h t, (takeNameAux ts).2 = h :: t ∧ (h = "M" ∨ h = "F") := by
  induction ts with
  | nil => exact Or.inl rfl
  | cons x xs ih =>
    by_cases hx : (x = "M" || x = "F") = true
    · refine Or.inr ⟨x, xs, ?_, ?_⟩
      · simp [takeNameAux, hx]
      · simpa using hx
    · simpa [takeNameAux, hx] using ih

/-- A Record with empty Gender has empty Category, Quota, College Code and
College Name: Gender is empty only when the Name loop exhausted the tokens. -/
lemma extractFields_gender_empty (parts : List String) (rec : Record)
    (h : extractFields parts = some rec) (hg : rec.gender = "") :
    rec.category = "" ∧ rec.quota = "" ∧ rec.collegeCode = "" ∧
      rec.collegeName = "" := by
  unfold extractFields at h
  rcases e1 : takeDigit parts with _ | ⟨sr, r1⟩
  · simp only [e1] at h
    exact Option.noConfusion h
  simp only [e1] at h
  rcases e2 : takeDigit r1 with _ | ⟨air, r2⟩
  · simp only [e2] at h
    exact Option.noConfusion h
  simp only [e2] at h
  rcases e3 : takeDigit r2 with _ | ⟨roll, r3⟩
  · simp only [e3] at h
    exact Option.noConfusion h
  simp only [e3] at h
  rcases e4 : takeDigit r3 with _ | ⟨form, r4⟩
  · simp only [e4] at h
    exact Option.noConfusion h
  simp only [e4, Option.some.injEq] at h
  subst h
  dsimp only at hg ⊢
  rcases takeNameAux_snd r4 with hn | ⟨g, t, hn, hgMF⟩
  · rw [hn] at hg ⊢
    refine ⟨by decide, by decide, by decide, by decide⟩
  · rw [hn] at hg
    rcases hgMF with rfl | rfl
    · exact absurd (show ("M" : String) = "" from hg) (by decide)
    · exact absurd (show ("F" : String) = "" from hg) (by decide)

/-- C10: in every emitted Record, if the Gender field is empty then Category,
Quota, College Code and College Name are all empty as well. -/
theorem c10_empty_gender_tail_empty (text : String) (rec : Record)
    (hmem : rec ∈ parse_text_file text) (hg : rec.gender = "") :
    rec.category = "" ∧ rec.quota = "" ∧ rec.collegeCode = "" ∧
      rec.collegeName = "" := by
  rcases mem_foldl_data (splitLines text) initState rec hmem with h | ⟨parts, hp⟩
  · exact absurd h (List.not_mem_nil rec)
  · exact extractFields_gender_empty parts rec hp hg

/-- Witness input for C10: a data row whose tokens run out inside the Name
loop, so Gender stays empty. -/
def c10Text : String :=
  "Sr.     AIR     NEET Roll No.\nsub header\n9 10 11 12 ONLYNAME"

/-- The Record the C10 witness input produces. -/
def c10Rec : Record :=
  { srNo := "9", air := "10", neetRoll := "11", cetForm := "12",
    name := "ONLYNAME", gender := "", category := "", quota := "",
    collegeCode := "", collegeName := "" }

/-- Witness for C10 at a concrete input: an emitted Record with empty Gender
has all later fields empty. -/
theorem c10_witness :
    (c10Rec ∈ parse_text_file c10Text ∧ c10Rec.gender = "") ∧
    (c10Rec.category = "" ∧ c10Rec.quota = "" ∧ c10Rec.collegeCode = "" ∧
      c10Rec.collegeName = "") :=
  ⟨⟨by decide, by decide⟩,
    c10_empty_gender_tail_empty c10Text c10Rec (by decide) (by decide)⟩

/-- Membership characterisation of the source's set-membership test. -/
lemma memS_eq_true_iff (x : String) : ∀ l : List String, memS x l = true ↔ x ∈ l := by
  intro l
  induction l with
  | nil => simp [memS]
  | cons y ys ih =>
    by_cases hxy : x = y
    · simp [memS, hxy]
    · simp [memS, hxy, ih]

/-- No category-vocabulary token is college-code shaped (`^\d+:`). -/
lemma cat_not_collegePat (c : String) (hc : memS c VALID_CATEGORIES = true) :
    collegePat c = false := by
  have h := (memS_eq_true_iff c VALID_CATEGORIES).mp hc
  fin_cases h <;> decide

/-- No sub-code token is the `(W)` marker. -/
lemma sub_ne_W (s : String) (hs : memS s subCodes = true) : ¬ s = "(W)" := by
  have h := (memS_eq_true_iff s subCodes).mp hs
  fin_cases h <;> decide

/-- Stripping a category-vocabulary token is the identity. -/
lemma strip_cat (c : String) (hc : memS c VALID_CATEGORIES = true) :
    pyStrip c = c := by
  have h := (memS_eq_true_iff c VALID_CATEGORIES).mp hc
  fin_cases h <;> decide

/-- Stripping a compound category (vocabulary token, space, sub-code) is the
identity. -/
lemma strip_compound (c s : String) (hc : memS c VALID_CATEGORIES = true)
    (hs : memS s subCodes = true) :
    pyStrip (c ++ " " ++ s) = c ++ " " ++ s := by
  have h := (memS_eq_true_iff c VALID_CATEGORIES).mp hc
  have h' := (memS_eq_true_iff s subCodes).mp hs
  fin_cases h <;> fin_cases h' <;> decide

/-- The Name loop stops exactly at the first gender token. -/
lemma takeNameAux_no_gender : ∀ ns : List String, ∀ rest : List String,
    (∀ t ∈ ns, ¬(t = "M" ∨ t = "F")) → ∀ g : String, (g = "M" ∨ g = "F") →
    takeNameAux (ns ++ g :: rest) = (ns, g :: rest) := by
  intro ns
  induction ns with
  | nil =>
    intro rest _ g hg
    rcases hg with rfl | rfl <;> simp [takeNameAux]
  | cons x xs ih =>
    intro rest hns g hg
    have hx : ¬(x = "M" ∨ x = "F") := hns x (List.mem_cons_self x xs)
    have hxm : x ≠ "M" := fun h => hx (Or.inl h)
    have hxf : x ≠ "F" := fun h => hx (Or.inr h)
    have h1 : (x = "M" || x = "F") = false := by simp [hxm, hxf]
    simp only [List.cons_append, takeNameAux, h1, Bool.false_eq_true, if_false,
      List.append_eq]
    rw [ih rest (fun t ht => hns t (List.mem_cons_of_mem x ht)) g hg]

/-- The Gender step consumes a gender token at the front. -/
lemma takeGender_gender (g : String) (ts : List String) (hg : g = "M" ∨ g = "F") :
    takeGender (g :: ts) = (g, ts) := by
  rcases hg with rfl | rfl <;> simp [takeGender]

/-- The shape of every accepted row: four digit tokens followed by the
Name/Gender/Category/Quota/College pipeline on the remaining tokens. -/
lemma extractFields_cons4 (d1 d2 d3 d4 : String) (R : List String)
    (h1 : isDigitStr d1 = true) (h2 : isDigitStr d2 = true)
    (h3 : isDigitStr d3 = true) (h4 : isDigitStr d4 = true) :
    extractFields (d1 :: d2 :: d3 :: d4 :: R) =
      some
        { srNo := d1, air := d2, neetRoll := d3, cetForm := d4,
          name := joinSpace (takeNameAux R).1,
          gender := (takeGender (takeNameAux R).2).1,
          category := pyStrip (extractCategory (takeGender (takeNameAux R).2).2).1,
          quota :=
            quotaNormalize
              (takeQuota (extractCategory (takeGender (takeNameAux R).2).2).2).1,
          collegeCode :=
            (extractCollege
              (takeQuota (extractCategory (takeGender (takeNameAux R).2).2).2).2).1,
          collegeName :=
            (extractCollege
              (takeQuota (extractCategory (takeGender (takeNameAux R).2).2).2).2).2 } := by
  simp [extractFields, takeDigit, h1, h2, h3, h4]

/-- C5: on a data line whose category-position token is a vocabulary token
immediately followed by the literal `(W)`, the emitted Record's Category is
empty, the category token is not consumed as category, and the Quota
consumption starts at that very token (the category token is consumed by the
Quota field). -/
theorem c5_W_suppresses_category (d1 d2 d3 d4 : String) (ns : List String)
    (g c : String) (rest : List String)
    (h1 : isDigitStr d1 = true) (h2 : isDigitStr d2 = true)
    (h3 : isDigitStr d3 = true) (h4 : isDigitStr d4 = true)
    (hns : ∀ t ∈ ns, ¬(t = "M" ∨ t = "F"))
    (hg : g = "M" ∨ g = "F")
    (hc : memS c VALID_CATEGORIES = true) :
    ∃ rec,
      extractFields (d1 :: d2 :: d3 :: d4 :: (ns ++ g :: c :: "(W)" :: rest)) =
          some rec ∧
        rec.category = "" ∧
        rec.quota = quotaNormalize (c :: (takeQuota ("(W)" :: rest)).1) := by
  have hname := takeNameAux_no_gender ns (c :: "(W)" :: rest) hns g hg
  have hgen := takeGender_gender g (c :: "(W)" :: rest) hg
  have hcat : extractCategory (c :: "(W)" :: rest) = ("", c :: "(W)" :: rest) := by
    simp [extractCategory, hc]
  have hcol : collegePat c = false := cat_not_collegePat c hc
  have hq : takeQuota (c :: "(W)" :: rest) =
      (c :: (takeQuota ("(W)" :: rest)).1, (takeQuota ("(W)" :: rest)).2) := by
    simp [takeQuota, hcol]
  refine ⟨_, extractFields_cons4 d1 d2 d3 d4 _ h1 h2 h3 h4, ?_, ?_⟩
  · dsimp only
    rw [hname]
    dsimp only
    rw [hgen]
    dsimp only
    rw [hcat]
    dsimp only
    decide
  · dsimp only
    rw [hname]
    dsimp only
    rw [hgen]
    dsimp only
    rw [hcat]
    dsimp only
    rw [hq]

/-- Witness for C5 at a concrete input: `... OBC (W) ...` in category position
yields an empty Category and `OBC` heads the Quota tokens. -/
theorem c5_witness :
    (isDigitStr "1" = true ∧ isDigitStr "501" = true ∧
      isDigitStr "123457" = true ∧ isDigitStr "7891" = true ∧
      (∀ t ∈ ["MEENA"], ¬(t = "M" ∨ t = "F")) ∧
      (("F" : String) = "M" ∨ ("F" : String) = "F") ∧
      memS "OBC" VALID_CATEGORIES = true) ∧
    ∃ rec,
      extractFields
          ("1" :: "501" :: "123457" :: "7891" ::
            (["MEENA"] ++ "F" :: "OBC" :: "(W)" :: ["State", "1006:Sixth College"])) =
          some rec ∧
        rec.category = "" ∧
        rec.quota =
          quotaNormalize
            ("OBC" :: (takeQuota ("(W)" :: ["State", "1006:Sixth College"])).1) :=
  ⟨⟨by decide, by decide, by decide, by decide, by decide, by decide, by decide⟩,
    c5_W_suppresses_category "1" "501" "123457" "7891" ["MEENA"] "F" "OBC"
      ["State", "1006:Sixth College"] (by decide) (by decide) (by decide)
      (by decide) (by decide) (by decide) (by decide)⟩

/-- C6: on a data line whose category-position tokens are a vocabulary token
followed by a sub-code from {D1, D2, D3, PWD, ORP-C}, the emitted Record's
Category is the two tokens joined by one space when the primary is not itself
a sub-code, and just the primary when it is. -/
theorem c6_compound_category (d1 d2 d3 d4 : String) (ns : List String)
    (g c s : String) (rest : List String)
    (h1 : isDigitStr d1 = true) (h2 : isDigitStr d2 = true)
    (h3 : isDigitStr d3 = true) (h4 : isDigitStr d4 = true)
    (hns : ∀ t ∈ ns, ¬(t = "M" ∨ t = "F"))
    (hg : g = "M" ∨ g = "F")
    (hc : memS c VALID_CATEGORIES = true)
    (hs : memS s subCodes = true) :
    ∃ rec,
      extractFields (d1 :: d2 :: d3 :: d4 :: (ns ++ g :: c :: s :: rest)) =
          some rec ∧
        rec.category = (if memS c subCodes then c else c ++ " " ++ s) := by
  have hname := takeNameAux_no_gender ns (c :: s :: rest) hns g hg
  have hgen := takeGender_gender g (c :: s :: rest) hg
  have hsW : ¬ s = "(W)" := sub_ne_W s hs
  refine ⟨_, extractFields_cons4 d1 d2 d3 d4 _ h1 h2 h3 h4, ?_⟩
  dsimp only
  rw [hname]
  dsimp only
  rw [hgen]
  dsimp only
  by_cases hcs : memS c subCodes
  · have hcat : extractCategory (c :: s :: rest) = (c, s :: rest) := by
      simp [extractCategory, hc, hsW, hs, hcs]
    rw [hcat, if_pos hcs]
    exact strip_cat c hc
  · have hcat : extractCategory (c :: s :: rest) = (c ++ " " ++ s, rest) := by
      simp [extractCategory, hc, hsW, hs, hcs]
    rw [hcat, if_neg hcs]
    exact strip_compound c s hc hs

/-- Witness for C6 at a concrete input: `... SC PWD ...` in category position
yields Category `SC PWD`. -/
theorem c6_witness :
    (isDigitStr "2" = true ∧ isDigitStr "502" = true ∧
      isDigitStr "123458" = true ∧ isDigitStr "7892" = true ∧
      (∀ t ∈ ["SUNIL", "RAO"], ¬(t = "M" ∨ t = "F")) ∧
      (("M" : String) = "M" ∨ ("M" : String) = "F") ∧
      memS "SC" VALID_CATEGORIES = true ∧ memS "PWD" subCodes = true) ∧
    ∃ rec,
      extractFields
          ("2" :: "502" :: "123458" :: "7892" ::
            (["SUNIL", "RAO"] ++ "M" :: "SC" :: "PWD" ::
              ["State", "1007:Seventh College"])) =
          some rec ∧
        rec.category = (if memS "SC" subCodes then "SC" else "SC" ++ " " ++ "PWD") :=
  ⟨⟨by decide, by decide, by decide, by decide, by decide, by decide, by decide,
      by decide⟩,
    c6_compound_category "2" "502" "123458" "7892" ["SUNIL", "RAO"] "M" "SC" "PWD"
      ["State", "1007:Seventh College"] (by decide) (by decide) (by decide)
      (by decide) (by decide) (by decide) (by decide) (by decide)⟩

/-- The Quota token sequence the extractor consumes for a row: the same
pipeline prefix as `extractFields`, observed at the Quota step. -/
def quotaTokensOf (parts : List String) : List String :=
  match takeDigit parts with
  | none => []
  | some (_, r1) =>
    match takeDigit r1 with
    | none => []
    | some (_, r2) =>
      match takeDigit r2 with
      | none => []
      | some (_, r3) =>
        match takeDigit r3 with
        | none => []
        | some (_, r4) =>
          (takeQuota (extractCategory (takeGender (takeNameAux r4).2).2).2).1

/-- C7: for every accepted data line, if the space-joined Quota token sequence
(the tokens consumed between the category position and the first
college-code-shaped token or the end of the line) starts with `Choice` — a
prefix test, not an exact-string test — the emitted Record's Quota is exactly
the literal `Choice Not Available`. -/
theorem c7_choice_normalization (parts : List String) (rec : Record)
    (h : extractFields parts = some rec)
    (hch : strStartsWith (joinSpace (quotaTokensOf parts)) "Choice" = true) :
    rec.quota = "Choice Not Available" := by
  unfold extractFields at h
  rcases e1 : takeDigit parts with _ | ⟨sr, r1⟩
  · simp only [e1] at h
    exact Option.noConfusion h
  simp only [e1] at h
  rcases e2 : takeDigit r1 with _ | ⟨air, r2⟩
  · simp only [e2] at h
    exact Option.noConfusion h
  simp only [e2] at h
  rcases e3 : takeDigit r2 with _ | ⟨roll, r3⟩
  · simp only [e3] at h
    exact Option.noConfusion h
  simp only [e3] at h
  rcases e4 : takeDigit r3 with _ | ⟨form, r4⟩
  · simp only [e4] at h
    exact Option.noConfusion h
  simp only [e4, Option.some.injEq] at h
  subst h
  simp only [quotaTokensOf, e1, e2, e3, e4] at hch
  dsimp only
  unfold quotaNormalize
  rw [if_pos hch]

/-- Witness input tokens for C7: the Quota tokens are
`Choice Not Avl XYZ` — they start with `Choice` without being equal to the
literal — and are followed by a college-code token. -/
def c7Parts : List String :=
  ["1", "2", "3", "4", "M", "Choice", "Not", "Avl", "XYZ", "12:AB"]

/-- The Record the C7 witness tokens produce. -/
def c7Rec : Record :=
  { srNo := "1", air := "2", neetRoll := "3", cetForm := "4",
    name := "", gender := "M", category := "", quota := "Choice Not Available",
    collegeCode := "12", collegeName := "AB" }

/-- Witness for C7 at a concrete input: a Quota token run starting with
`Choice` (and not equal to the literal) is normalised to
`Choice Not Available`. -/
theorem c7_witness :
    (extractFields c7Parts = some c7Rec ∧
      strStartsWith (joinSpace (quotaTokensOf c7Parts)) "Choice" = true) ∧
    c7Rec.quota = "Choice Not Available" :=
  ⟨⟨by decide, by decide⟩,
    c7_choice_normalization c7Parts c7Rec (by decide) (by decide)⟩
